import Mathlib

/-!
Verification development for the StitchIt video-assembly service.

The definitions below are a shallow embedding of the TypeScript source:

* `calculateTransitionOffsets`, `buildFilterComplex` and the ffmpeg command
  construction come from `FFmpegService` (ffmpegService.ts);
* the Mux polling loops come from `MuxService.uploadVideo` (muxService.ts);
* the orchestration / failure-cleanup policy comes from
  `VideoProcessor.processVideo` (videoProcessor.ts);
* file naming comes from `FileManager` (fileManager.ts);
* request validation comes from the Joi schemas (validation/schemas.ts).

JavaScript numbers are modelled by `ℚ` (the arithmetic in scope is exact on
the embedded operations), JS arrays by `List`, fallible calls by explicit
outcome types, and the two bounded `while` loops by fuel-indexed structural
recursion where the fuel is `maxRetries - retries`.
-/

namespace StitchIt

/-- JS `x || d` for an optional number: `undefined` and `0` are falsy. -/
def jsOrQ (x : Option ℚ) (d : ℚ) : ℚ :=
  match x with
  | none => d
  | some v => if v = 0 then d else v

/-- JS `x || d` for an optional natural number: `undefined` and `0` are falsy. -/
def jsOrN (x : Option ℕ) (d : ℕ) : ℕ :=
  match x with
  | none => d
  | some v => if v = 0 then d else v

/-! ## Timing Calculator (FFmpegService.calculateTransitionOffsets)

Source:
```
calculateTransitionOffsets(clipDurations, transitionDuration) {
  const offsets = [];
  let cumulativeDuration = 0;
  for (let i = 0; i < clipDurations.length - 1; i++) {
    cumulativeDuration += clipDurations[i]! - transitionDuration;
    offsets.push(cumulativeDuration);
  }
  return offsets;
}
```
The loop visits indices `0 .. n-2`, i.e. exactly `clipDurations.dropLast`.
-/

/-- The loop body of `calculateTransitionOffsets`: walk the durations,
accumulating `cumulative += d - t` and emitting each accumulated value. -/
def offsetsLoop (t : ℚ) : List ℚ → ℚ → List ℚ
  | [], _ => []
  | d :: rest, cum => (cum + (d - t)) :: offsetsLoop t rest (cum + (d - t))

/-- Embedding of `FFmpegService.calculateTransitionOffsets`. -/
def calculateTransitionOffsets (clipDurations : List ℚ) (transitionDuration : ℚ) : List ℚ :=
  offsetsLoop transitionDuration clipDurations.dropLast 0

/-! ## Data model (types/index.ts) -/

/-- `outputAspectRatio` field: `'9:16' | '16:9'` (validated by Joi `valid`). -/
inductive Aspect
  | nineSixteen
  | sixteenNine
deriving DecidableEq

/-- `ASPECT_RATIO_CONFIGS` from types/index.ts: `'9:16' → 1080×1920`,
`'16:9' → 1920×1080`, as a `(width, height)` pair. -/
def aspectConfigs : Aspect → ℕ × ℕ
  | .nineSixteen => (1080, 1920)
  | .sixteenNine => (1920, 1080)

/-- Compression tier, `'balanced' | 'high' | 'maximum'`. -/
inductive CompressionLevel
  | balanced
  | high
  | maximum
deriving DecidableEq

/-- A validated video clip (types/index.ts `VideoClip`). -/
structure VideoClip where
  url : String
  duration : ℚ
deriving DecidableEq

/-- Validated request (types/index.ts `ProcessVideoRequest`; the optional
`compressionLevel` / `audioBitrate` fields are the ones read by
`FFmpegService.processVideo`). `outputAspect` embeds `outputAspectRatio`. -/
structure ProcessVideoRequest where
  videoClips : List VideoClip
  assFileUrl : String
  songUrl : String
  songId : String
  songTitle : Option String
  outputAspect : Aspect
  transitionDuration : Option ℚ
  compressionLevel : Option CompressionLevel
  audioBitrate : Option ℕ

/-- `ProcessingContext.localFiles`. -/
structure LocalFiles where
  videoClips : List String
  assFile : String
  songFile : String
  outputFile : String
  thumbnailFile : String

/-- `ProcessingContext.metadata`. -/
structure ContextMetadata where
  songDuration : ℚ
  totalClipDuration : ℚ
  transitionOffsets : List ℚ

/-- `ProcessingContext` (types/index.ts). -/
structure ProcessingContext where
  processId : String
  request : ProcessVideoRequest
  tempDir : String
  localFiles : LocalFiles
  metadata : ContextMetadata

/-! ## Filter Graph Builder (FFmpegService.buildFilterComplex)

The source builds one string:
1. per-clip `"[i:v]scale=w:h,setsar=1[vi];"` segments;
2. if `n = 1`, the literal `"[v0]"`; otherwise a left-to-right `xfade` chain
   driven by `currentLabel`, where iteration `i = 1 .. n-1` consumes
   `metadata.transitionOffsets[i-1]` and emits label `"vi_fade"` except the
   last iteration which emits `"video_out"`;
3. a subtitle burn-in segment reading `"[v0]"` (single clip) or
   `"[video_out]"` and writing `"[vout]"`, with
   `fontsdir = path.join(process.cwd(), 'fonts')` (the `cwd` argument below).
-/

/-- One `xfade` stage of the transition chain, in structured form: the string
segment emitted for it is `renderXfade`. -/
structure XfadeStage where
  left : String
  right : String
  dur : ℚ
  off : ℚ
  out : String
deriving DecidableEq

/-- Placeholder stage used as the `getD` default when indexing chains. -/
def stageDefault : XfadeStage := ⟨"", "", 0, 0, ""⟩

/-- The string segment the source emits for one chain iteration. -/
def renderXfade (s : XfadeStage) : String :=
  "[" ++ s.left ++ "][" ++ s.right ++ "]xfade=transition=fade:duration="
    ++ toString s.dur ++ ":offset=" ++ toString s.off ++ "[" ++ s.out ++ "];"

/-- The transition-chain loop of `buildFilterComplex`, in structured form:
`idxs` is the remaining loop indices (`[1, …, n-1]` initially) and `cur` the
mutable `currentLabel` (initially `"v0"`). -/
def chainLoop (n : ℕ) (t : ℚ) (offsets : List ℚ) : List ℕ → String → List XfadeStage
  | [], _ => []
  | i :: rest, cur =>
    ⟨cur, "v" ++ toString i, t, offsets.getD (i - 1) 0,
      if i = n - 1 then "video_out" else "v" ++ toString i ++ "_fade"⟩
      :: chainLoop n t offsets rest
          (if i = n - 1 then "video_out" else "v" ++ toString i ++ "_fade")

/-- The xfade stages `buildFilterComplex` emits for an `n`-clip request. -/
def transitionStages (n : ℕ) (t : ℚ) (offsets : List ℚ) : List XfadeStage :=
  chainLoop n t offsets (List.range' 1 (n - 1)) "v0"

/-- Per-clip scaling segment `"[i:v]scale=w:h,setsar=1[vi];"`. -/
def scaleSegment (w h i : ℕ) : String :=
  "[" ++ toString i ++ ":v]scale=" ++ toString w ++ ":" ++ toString h
    ++ ",setsar=1[v" ++ toString i ++ "];"

/-- Embedding of `FFmpegService.buildFilterComplex`. `cwd` models
`process.cwd()`; `path.join(cwd, 'fonts')` becomes `cwd ++ "/fonts"`. -/
def buildFilterComplex (cwd : String) (ctx : ProcessingContext) : String :=
  let n := ctx.localFiles.videoClips.length
  let wh := aspectConfigs ctx.request.outputAspect
  let transitionDuration := jsOrQ ctx.request.transitionDuration (1 / 2)
  let scalePart := String.join ((List.range n).map (scaleSegment wh.1 wh.2))
  let chainPart :=
    if n = 1 then "[v0]"
    else String.join
      ((transitionStages n transitionDuration ctx.metadata.transitionOffsets).map renderXfade)
  let fontsDir := cwd ++ "/fonts"
  let subtitlePart :=
    if n = 1 then "[v0]ass=" ++ ctx.localFiles.assFile ++ ":fontsdir=" ++ fontsDir ++ "[vout]"
    else "[video_out]ass=" ++ ctx.localFiles.assFile ++ ":fontsdir=" ++ fontsDir ++ "[vout]"
  scalePart ++ chainPart ++ subtitlePart

/-- Closed form of the `j`-th xfade stage (0-based over the chain) when the
loop starts at index `a` with label `cur`. -/
def stageSpec (n : ℕ) (t : ℚ) (offs : List ℚ) (cur : String) (a j : ℕ) : XfadeStage :=
  ⟨if j = 0 then cur else "v" ++ toString (a + j - 1) ++ "_fade",
   "v" ++ toString (a + j), t, offs.getD (a + j - 1) 0,
   if a + j = n - 1 then "video_out" else "v" ++ toString (a + j) ++ "_fade"⟩

/-! ## Transcode invocation (FFmpegService.processVideo)

The source assembles a fluent-ffmpeg command: one `.input(...)` per clip in
playback order, then `.input(songFile)`, then `.input(assFile)`, the filter
complex, and a flat `outputOptions` array of flag/value pairs ending in
`'-t', metadata.songDuration.toString()`.
-/

/-- The `compressionSettings` table of `FFmpegService.processVideo`,
as `(crf, preset)`. -/
def compressionSettings : CompressionLevel → String × String
  | .balanced => ("25", "medium")
  | .high => ("28", "slower")
  | .maximum => ("32", "veryslow")

/-- The observable pieces of the assembled fluent-ffmpeg command. -/
structure FfmpegCommand where
  inputs : List String
  filterComplex : String
  outputOptions : List String
  outputFile : String

/-- Embedding of the command construction in `FFmpegService.processVideo`
(the clip/song/subtitle `.input` calls, `.complexFilter`, `.outputOptions`,
`.output`). -/
def processVideoCommand (cwd : String) (ctx : ProcessingContext) : FfmpegCommand :=
  let settings := compressionSettings (ctx.request.compressionLevel.getD .high)
  let audioBitrate := jsOrN ctx.request.audioBitrate 96
  { inputs := ctx.localFiles.videoClips ++ [ctx.localFiles.songFile, ctx.localFiles.assFile]
    filterComplex := buildFilterComplex cwd ctx
    outputOptions :=
      ["-map", "[vout]",
       "-map", toString ctx.localFiles.videoClips.length ++ ":a",
       "-c:v", "libx264",
       "-preset", settings.2,
       "-crf", settings.1,
       "-profile:v", "high",
       "-level", "4.1",
       "-pix_fmt", "yuv420p",
       "-x264-params",
       "me=umh:subme=8:ref=3:bframes=3:b-adapt=2:direct=auto:weightb=1:analyse=all:8x8dct=1:trellis=2:fast-pskip=0:mixed-refs=1",
       "-c:a", "aac",
       "-b:a", toString audioBitrate ++ "k",
       "-ac", "2",
       "-ar", "44100",
       "-movflags", "+faststart",
       "-t", toString ctx.metadata.songDuration]
    outputFile := ctx.localFiles.outputFile }

/-- Read a flat flag/value option array pairwise and collect the values of
every occurrence of `flag`. -/
def flagValues (flag : String) : List String → List String
  | f :: v :: rest => if f == flag then v :: flagValues flag rest else flagValues flag rest
  | _ => []

/-! ## File naming (FileManager) -/

/-- Embedding of `FileManager.generateFileName`; the `songId` parameter is
accepted (as in the source) but unused. -/
def generateFileName (songId processId extension : String) : String :=
  "final_video_" ++ processId ++ "." ++ extension

/-- Embedding of `FileManager.generateBlobPath`. -/
def generateBlobPath (songId fileName : String) : String :=
  "videos/" ++ songId ++ "/" ++ fileName

/-! ## Asset Materialization Client (MuxService.uploadVideo)

Two bounded `while` loops. The ingest-status loop
(`statusRetries < maxStatusRetries && !assetId`, `maxStatusRetries = 10`)
does one `uploads.retrieve` per iteration (a thrown retrieve error is caught
and only counted). The asset-ready loop (`retries < maxRetries`,
`maxRetries = 30`) does one `assets.retrieve` per iteration and then:

* `status === 'ready' && playback_ids && playback_ids.length > 0` → `break`;
* `status === 'errored'` → `throw new Error('Mux asset processing failed…')`;
* otherwise sleep 10 s and `retries++`.

Crucially, that `throw` sits inside the same `try` whose `catch` handles
retrieve failures: the catch rethrows only when `retries === maxRetries - 1`
and otherwise sleeps and keeps polling. After the loop, a non-ready asset
yields `throw new Error('Mux asset did not become ready within the timeout
period')`.

Each loop is embedded with the poll outcomes supplied as a function of the
retry counter (each iteration performs exactly one retrieve at the current
counter value) and fuel `maxRetries - retries`, so the loop guard
`retries < maxRetries` is exactly `fuel > 0`.
-/

/-- `maxStatusRetries` in `MuxService.uploadVideo`. -/
def maxStatusRetries : ℕ := 10

/-- `maxRetries` in `MuxService.uploadVideo`. -/
def maxRetries : ℕ := 30

/-- Outcome of one `uploads.retrieve` poll: the call threw, or returned an
upload object whose `asset_id` may still be null. -/
inductive IngestPoll
  | throwErr
  | status (assetId : Option String)

/-- Result of the ingest-status loop plus the `if (!assetId) throw` check
that follows it; `polls` counts `uploads.retrieve` calls. -/
inductive IngestExit
  | found (assetId : String) (polls : ℕ)
  | noAssetId (polls : ℕ)
deriving DecidableEq

/-- Number of ingest polls performed. -/
def IngestExit.polls : IngestExit → ℕ
  | .found _ p => p
  | .noAssetId p => p

/-- The ingest-status loop body, fuel-indexed. -/
def ingestLoop (poll : ℕ → IngestPoll) : ℕ → ℕ → IngestExit
  | 0, r => .noAssetId r
  | fuel + 1, r =>
    match poll r with
    | .throwErr => ingestLoop poll fuel (r + 1)
    | .status none => ingestLoop poll fuel (r + 1)
    | .status (some assetId) => .found assetId (r + 1)

/-- The full ingest-status polling phase of `MuxService.uploadVideo` (run
only when the upload allocation returned no `asset_id`). -/
def muxIngestWait (poll : ℕ → IngestPoll) : IngestExit :=
  ingestLoop poll maxStatusRetries 0

/-- Outcome of one `assets.retrieve` poll: the call threw, or returned an
asset with a `status` string and its (possibly empty) `playback_ids`. -/
inductive AssetPoll
  | throwErr
  | asset (status : String) (playbackIds : List String)

/-- Whether a poll outcome satisfies the loop's break test
`status === 'ready' && playback_ids && playback_ids.length > 0`. -/
def AssetPoll.passesReady : AssetPoll → Bool
  | .throwErr => false
  | .asset st pids => st == "ready" && pids.length > 0

/-- Whether a poll outcome takes the silent wait-and-retry path (neither the
break test, nor `errored`, nor a thrown retrieve). -/
def AssetPoll.isPending : AssetPoll → Bool
  | .throwErr => false
  | .asset st pids => !(st == "ready" && pids.length > 0) && !(st == "errored")

/-- Result of the asset-ready loop plus the post-loop readiness check;
`polls` counts `assets.retrieve` calls. `fatalErrored` is the propagated
`'Mux asset processing failed…'` error, `fatalRetrieve` a propagated
retrieve exception, `timedOut` the post-loop `'did not become ready within
the timeout period'` error. -/
inductive AssetExit
  | ready (playbackIds : List String) (polls : ℕ)
  | fatalErrored (polls : ℕ)
  | fatalRetrieve (polls : ℕ)
  | timedOut (polls : ℕ)
deriving DecidableEq

/-- Number of asset polls performed. -/
def AssetExit.polls : AssetExit → ℕ
  | .ready _ p => p
  | .fatalErrored p => p
  | .fatalRetrieve p => p
  | .timedOut p => p

/-- Whether the materialization phase ended fatally (any propagated error). -/
def AssetExit.isFatal : AssetExit → Bool
  | .ready _ _ => false
  | _ => true

/-- The asset-ready loop body, fuel-indexed; a throw (from `errored` or from
the retrieve itself) is caught and rethrown only at `retries ===
maxRetries - 1`, otherwise the loop sleeps and continues. -/
def assetLoop (poll : ℕ → AssetPoll) : ℕ → ℕ → AssetExit
  | 0, r => .timedOut r
  | fuel + 1, r =>
    match poll r with
    | .throwErr =>
      if r = maxRetries - 1 then .fatalRetrieve (r + 1) else assetLoop poll fuel (r + 1)
    | .asset st pids =>
      if st == "ready" && pids.length > 0 then .ready pids (r + 1)
      else if st == "errored" then
        (if r = maxRetries - 1 then .fatalErrored (r + 1) else assetLoop poll fuel (r + 1))
      else assetLoop poll fuel (r + 1)

/-- The full asset-ready polling phase of `MuxService.uploadVideo`. -/
def muxAssetWait (poll : ℕ → AssetPoll) : AssetExit :=
  assetLoop poll maxRetries 0

/-! ## Pipeline Orchestrator (VideoProcessor.processVideo)

Sequencing from videoProcessor.ts: validate → verify engine/fonts → create
context (workspace) → download assets → extract metadata → ffmpeg transcode
→ thumbnail → `Promise.all([uploadOutput, uploadThumbnail, uploadToMux])` →
cleanup. The catch block runs

```
if (context?.tempDir && !(error instanceof ProcessingError
      && error.stage === ProcessingStage.OUTPUT_UPLOAD)) {
  await this.fileManager.cleanupDirectory(context.tempDir).catch(() => {});
} else if (…OUTPUT_UPLOAD…) { /* preserve for manual retry */ }
```

The per-step failure stages come from the throw sites:
validation / engine-verify / workspace-creation failures carry stage
`validation`, download failures `asset_download` (and `downloadAssets`
itself deletes the workspace before rethrowing), metadata `
metadata_extraction`, transcode and thumbnail `video_processing`, and every
upload-fork failure (`BlobService.uploadVideo`, `MuxService.uploadVideo`)
`output_upload` with code `UPLOAD_FAILED`.

The model tracks only the observable facts the claim is about: whether the
temporary workspace and the rendered output file exist.
-/

/-- `ProcessingStage` (types/index.ts). -/
inductive Stage
  | validation
  | assetDownload
  | metadataExtraction
  | ffmpegConstruction
  | videoProcessing
  | outputUpload
  | cleanup
deriving DecidableEq

/-- `ProcessingErrorCode` (types/index.ts). -/
inductive ErrorCode
  | validationError
  | downloadFailed
  | metadataExtractionError
  | ffmpegProcessingError
  | uploadFailed
  | cleanupError
deriving DecidableEq

/-- The `{code, stage}` pair of a thrown `ProcessingError`. -/
structure ProcError where
  code : ErrorCode
  stage : Stage
deriving DecidableEq

/-- The steps `VideoProcessor.processVideo` runs, in order. -/
inductive PipelineStep
  | validate
  | verifyEngine
  | createWorkspace
  | downloadAssets
  | extractMetadata
  | transcode
  | thumbnail
  | uploadFork
deriving DecidableEq

/-- Position of each step in the sequencing of `processVideo`. -/
def stepIndex : PipelineStep → ℕ
  | .validate => 0
  | .verifyEngine => 1
  | .createWorkspace => 2
  | .downloadAssets => 3
  | .extractMetadata => 4
  | .transcode => 5
  | .thumbnail => 6
  | .uploadFork => 7

/-- The `ProcessingError` each step raises when it fails (from the
corresponding `throw new ProcessingError(...)` sites). -/
def stepError : PipelineStep → ProcError
  | .validate => ⟨.validationError, .validation⟩
  | .verifyEngine => ⟨.ffmpegProcessingError, .validation⟩
  | .createWorkspace => ⟨.validationError, .validation⟩
  | .downloadAssets => ⟨.downloadFailed, .assetDownload⟩
  | .extractMetadata => ⟨.metadataExtractionError, .metadataExtraction⟩
  | .transcode => ⟨.ffmpegProcessingError, .videoProcessing⟩
  | .thumbnail => ⟨.ffmpegProcessingError, .videoProcessing⟩
  | .uploadFork => ⟨.uploadFailed, .outputUpload⟩

/-- Observable filesystem facts of one request run. -/
structure WorldState where
  workspaceExists : Bool
  renderedFileExists : Bool
deriving DecidableEq

/-- `fileManager.cleanupDirectory(tempDir)`: removes the workspace and
everything inside it (including the rendered output file). -/
def cleanupDir (_s : WorldState) : WorldState := ⟨false, false⟩

/-- What a step changes in the world when it succeeds. -/
def stepEffect : PipelineStep → WorldState → WorldState
  | .createWorkspace, s => { s with workspaceExists := true }
  | .transcode, s => { s with renderedFileExists := true }
  | _, s => s

/-- Extra cleanup a step performs internally when it fails, before its error
propagates: `FileManager.downloadAssets` deletes the workspace itself. -/
def stepFailureEffect : PipelineStep → WorldState → WorldState
  | .downloadAssets, s => cleanupDir s
  | _, s => s

/-- The catch block of `processVideo`: cleanup unless the context was never
created or the error is a `ProcessingError` at stage `OUTPUT_UPLOAD`. -/
def handleFailure (contextCreated : Bool) (e : ProcError) (s : WorldState) : WorldState :=
  if contextCreated && !(e.stage == Stage.outputUpload) then cleanupDir s else s

/-- Terminal observation of one `processVideo` run. -/
inductive RunResult
  | completed (s : WorldState)
  | failed (e : ProcError) (s : WorldState)
deriving DecidableEq

/-- Walk the remaining steps; `failAt` is the step (if any) that fails on
this run, `contextCreated` tracks whether `context` has been assigned. On
success of all steps the `cleanup` step removes the workspace. -/
def runSteps (failAt : Option PipelineStep) : List PipelineStep → Bool → WorldState → RunResult
  | [], _, s => .completed (cleanupDir s)
  | step :: rest, contextCreated, s =>
    if failAt = some step then
      .failed (stepError step) (handleFailure contextCreated (stepError step) (stepFailureEffect step s))
    else
      runSteps failAt rest (contextCreated || step == PipelineStep.createWorkspace) (stepEffect step s)

/-- The step sequence of `VideoProcessor.processVideo`. -/
def pipelineOrder : List PipelineStep :=
  [.validate, .verifyEngine, .createWorkspace, .downloadAssets,
   .extractMetadata, .transcode, .thumbnail, .uploadFork]

/-- One run of `VideoProcessor.processVideo` in which step `failAt` (if
any) fails. -/
def runPipeline (failAt : Option PipelineStep) : RunResult :=
  runSteps failAt pipelineOrder false ⟨false, false⟩

/-! ## Request validation (validation/schemas.ts)

`videoClipSchema` asks Joi for a `url` matching an HTTPS video-file pattern
and a `duration` declared `Joi.number().min(1).max(60).default(8)`: an
absent `duration` key gets default `8`, a present one outside `[1, 60]` is
a validation error.
-/

/-- The `url` pattern of `videoClipSchema`:
`/^https:\/\/.*\.(mp4|mov|avi|mkv)$/` (the literal `https://` at the start
and one of the four video extensions at the end), stated on the character
list of the string. -/
def validVideoClipUrl (u : String) : Bool :=
  "https://".data.isPrefixOf u.data &&
    (".mp4".data.isSuffixOf u.data || ".mov".data.isSuffixOf u.data
      || ".avi".data.isSuffixOf u.data || ".mkv".data.isSuffixOf u.data)

/-- A raw (pre-validation) clip object: `duration` may be absent. -/
structure RawVideoClip where
  url : String
  duration : Option ℚ

/-- Embedding of `videoClipSchema.validate`: Joi checks the URL pattern,
applies `default(8)` when `duration` is absent, and enforces
`min(1).max(60)` when it is present. -/
def validateVideoClip (c : RawVideoClip) : Except String VideoClip :=
  if validVideoClipUrl c.url then
    match c.duration with
    | none => .ok ⟨c.url, 8⟩
    | some d =>
      if 1 ≤ d ∧ d ≤ 60 then .ok ⟨c.url, d⟩
      else .error "Video clip duration must be between 1 and 60 seconds"
  else .error "Video clip URL must be a valid HTTPS URL pointing to a video file"

/-! ## Concrete sample inputs (used to instantiate the theorems) -/

/-- A two-clip request matching end-to-end scenario A of the spec. -/
def demoRequest : ProcessVideoRequest :=
  { videoClips := [⟨"https://cdn.example/a.mp4", 8⟩, ⟨"https://cdn.example/b.mp4", 8⟩]
    assFileUrl := "https://cdn.example/subs.ass"
    songUrl := "https://cdn.example/song.mp3"
    songId := "song-1"
    songTitle := none
    outputAspect := .nineSixteen
    transitionDuration := none
    compressionLevel := none
    audioBitrate := none }

/-- A processing context for `demoRequest` after download and metadata
extraction. -/
def demoContext : ProcessingContext :=
  { processId := "p1"
    request := demoRequest
    tempDir := "/tmp/p1"
    localFiles :=
      ⟨["/tmp/p1/clip_1.mp4", "/tmp/p1/clip_2.mp4"], "/tmp/p1/subtitles.ass",
        "/tmp/p1/song.mp3", "/tmp/p1/final_video.mp4", "/tmp/p1/thumbnail.jpg"⟩
    metadata := ⟨12, 16, calculateTransitionOffsets [8, 8] (1 / 2)⟩ }

/-- A single-clip context (end-to-end scenario B). -/
def demoContext1 : ProcessingContext :=
  { processId := "p2"
    request := { demoRequest with videoClips := [⟨"https://cdn.example/a.mp4", 10⟩] }
    tempDir := "/tmp/p2"
    localFiles :=
      ⟨["/tmp/p2/clip_1.mp4"], "/tmp/p2/subtitles.ass",
        "/tmp/p2/song.mp3", "/tmp/p2/final_video.mp4", "/tmp/p2/thumbnail.jpg"⟩
    metadata := ⟨20, 10, calculateTransitionOffsets [10] (1 / 2)⟩ }

/-! ## Supporting lemmas -/

lemma offsetsLoop_length (t : ℚ) (ds : List ℚ) (c : ℚ) :
    (offsetsLoop t ds c).length = ds.length := by
  induction ds generalizing c with
  | nil => rfl
  | cons d rest ih => simp [offsetsLoop, ih]

lemma offsetsLoop_step (t : ℚ) (ds : List ℚ) (c : ℚ) (i : ℕ)
    (h : i + 1 < ds.length) :
    (offsetsLoop t ds c).getD (i + 1) 0
      = (offsetsLoop t ds c).getD i 0 + ds.getD (i + 1) 0 - t := by
  induction ds generalizing c i with
  | nil => simp at h
  | cons d rest ih =>
    cases i with
    | zero =>
      cases rest with
      | nil => simp at h
      | cons d2 rest2 =>
        simp [offsetsLoop]
        ring
    | succ j =>
      have hj : j + 1 < rest.length := by
        simpa [Nat.succ_lt_succ_iff] using h
      simpa [offsetsLoop] using ih (c + (d - t)) j hj

lemma calculateTransitionOffsets_length (ds : List ℚ) (t : ℚ) :
    (calculateTransitionOffsets ds t).length = ds.length - 1 := by
  simp [calculateTransitionOffsets, offsetsLoop_length]

lemma getD_dropLast (l : List ℚ) (i : ℕ) (h : i < l.length - 1) :
    l.dropLast.getD i 0 = l.getD i 0 := by
  have h1 : i < l.dropLast.length := by
    simpa [List.length_dropLast] using h
  have h2 : i < l.length := by
    have := l.length_dropLast
    omega
  rw [List.getD_eq_getElem _ _ h1, List.getD_eq_getElem _ _ h2]
  exact List.getElem_dropLast _ _ h1

lemma chainLoop_closed (n : ℕ) (t : ℚ) (offs : List ℚ) :
    ∀ (m a : ℕ) (cur : String), a + m = n →
      chainLoop n t offs (List.range' a m) cur
        = (List.range m).map (stageSpec n t offs cur a) := by
  intro m
  induction m with
  | zero => intro a cur _; rfl
  | succ m ih =>
    intro a cur h
    rw [List.range'_succ, List.range_succ_eq_map, List.map_cons]
    simp only [chainLoop]
    have hhead : stageSpec n t offs cur a 0
        = ⟨cur, "v" ++ toString a, t, offs.getD (a - 1) 0,
            if a = n - 1 then "video_out" else "v" ++ toString a ++ "_fade"⟩ := by
      simp [stageSpec]
    rw [hhead]
    have htail := ih (a + 1)
      (if a = n - 1 then "video_out" else "v" ++ toString a ++ "_fade") (by omega)
    rw [htail, List.map_map]
    refine congrArg _ (List.map_congr_left ?_)
    intro j hj
    have hjm : j < m := List.mem_range.mp hj
    have hne : a ≠ n - 1 := by omega
    have e1 : a + 1 + j - 1 = a + j := by omega
    have e2 : a + (j + 1) - 1 = a + j := by omega
    have e3 : a + 1 + j = a + (j + 1) := by omega
    cases j with
    | zero =>
      simp only [stageSpec, Function.comp_apply, e1, e2, e3, if_neg hne]
      simp
    | succ i =>
      simp only [stageSpec, Function.comp_apply, e1, e2, e3]
      simp

lemma transitionStages_closed (n : ℕ) (t : ℚ) (offs : List ℚ) (hn : 1 ≤ n) :
    transitionStages n t offs
      = (List.range (n - 1)).map (stageSpec n t offs "v0" 1) := by
  have := chainLoop_closed n t offs (n - 1) 1 "v0" (by omega)
  simpa [transitionStages] using this

lemma transitionStages_length (n : ℕ) (t : ℚ) (offs : List ℚ) (hn : 1 ≤ n) :
    (transitionStages n t offs).length = n - 1 := by
  simp [transitionStages_closed n t offs hn]

lemma getD_append_pair_left (l m : List String) (i : ℕ) (h : i < l.length) :
    (l ++ m).getD i "" = l.getD i "" :=
  List.getD_append l m "" i h

lemma getD_append_pair_mid (l : List String) (a b : String) :
    (l ++ [a, b]).getD l.length "" = a := by
  rw [List.getD_append_right l [a, b] "" l.length (le_refl _)]
  simp

lemma getD_append_pair_last (l : List String) (a b : String) :
    (l ++ [a, b]).getD (l.length + 1) "" = b := by
  rw [List.getD_append_right l [a, b] "" (l.length + 1) (by omega)]
  simp

lemma ingestLoop_polls_le (poll : ℕ → IngestPoll) :
    ∀ fuel r, (ingestLoop poll fuel r).polls ≤ fuel + r := by
  intro fuel
  induction fuel with
  | zero => intro r; simp [ingestLoop, IngestExit.polls]
  | succ m ih =>
    intro r
    have hm := ih (r + 1)
    cases hp : poll r with
    | throwErr => simp only [ingestLoop, hp]; omega
    | status a =>
      cases a with
      | none => simp only [ingestLoop, hp]; omega
      | some s => simp only [ingestLoop, hp, IngestExit.polls]; omega

lemma assetLoop_polls_le (poll : ℕ → AssetPoll) :
    ∀ fuel r, (assetLoop poll fuel r).polls ≤ fuel + r := by
  intro fuel
  induction fuel with
  | zero => intro r; simp [assetLoop, AssetExit.polls]
  | succ m ih =>
    intro r
    have hm := ih (r + 1)
    cases hp : poll r with
    | throwErr =>
      simp only [assetLoop, hp]
      split
      · simp [AssetExit.polls]; omega
      · omega
    | asset st pids =>
      simp only [assetLoop, hp]
      split
      · simp [AssetExit.polls]; omega
      · split
        · split
          · simp [AssetExit.polls]; omega
          · omega
        · omega

lemma assetLoop_never_ready (poll : ℕ → AssetPoll)
    (h : ∀ r, (poll r).passesReady = false) :
    ∀ fuel r, fuel + r = maxRetries →
      (assetLoop poll fuel r).isFatal = true ∧ (assetLoop poll fuel r).polls = maxRetries := by
  intro fuel
  induction fuel with
  | zero =>
    intro r hr
    simp only [assetLoop, AssetExit.isFatal, AssetExit.polls]
    exact ⟨trivial, by omega⟩
  | succ m ih =>
    intro r hr
    have hm := ih (r + 1) (by omega)
    cases hp : poll r with
    | throwErr =>
      simp only [assetLoop, hp]
      split
      · constructor
        · rfl
        · simp only [AssetExit.polls]; omega
      · exact hm
    | asset st pids =>
      have hready : (st == "ready" && decide (pids.length > 0)) = false := by
        have := h r
        rw [hp] at this
        simpa [AssetPoll.passesReady] using this
      simp only [assetLoop, hp, hready, Bool.false_eq_true, if_false]
      split
      · split
        · constructor
          · rfl
          · simp only [AssetExit.polls]; omega
        · exact hm
      · exact hm

lemma assetLoop_all_pending (poll : ℕ → AssetPoll)
    (h : ∀ r, (poll r).isPending = true) :
    ∀ fuel r, assetLoop poll fuel r = .timedOut (fuel + r) := by
  intro fuel
  induction fuel with
  | zero => intro r; simp [assetLoop]
  | succ m ih =>
    intro r
    cases hp : poll r with
    | throwErr =>
      have := h r
      rw [hp] at this
      simp [AssetPoll.isPending] at this
    | asset st pids =>
      have hpend := h r
      rw [hp] at hpend
      simp only [AssetPoll.isPending, Bool.and_eq_true, Bool.not_eq_eq_eq_not,
        Bool.not_true] at hpend
      simp only [assetLoop, hp, hpend.1, Bool.false_eq_true, if_false, hpend.2,
        ih (r + 1)]
      congr 1
      omega

lemma join_singleton (s : String) : String.join [s] = s := by
  simp [String.join, String.empty_append]

lemma transitionStages_getD (n : ℕ) (t : ℚ) (offs : List ℚ) (hn : 1 ≤ n)
    (j : ℕ) (hj : j < n - 1) :
    (transitionStages n t offs).getD j stageDefault = stageSpec n t offs "v0" 1 j := by
  rw [transitionStages_closed n t offs hn]
  have hlen : j < ((List.range (n - 1)).map (stageSpec n t offs "v0" 1)).length := by
    simpa using hj
  rw [List.getD_eq_getElem _ _ hlen]
  simp

/-! ## Claim theorems -/

/-- Claim C1: for clip durations `d` with `n = d.length ≥ 2` and cross-fade
duration `t`, `calculateTransitionOffsets d t` returns exactly `n - 1`
offsets with `offset 0 = d 0 - t` and
`offset i = offset (i-1) + d i - t` for `1 ≤ i < n - 1`. Reproducibility is
inherent: the embedding is a pure function of `(d, t)` over exact
arithmetic. -/
theorem calculateTransitionOffsets_spec (d : List ℚ) (t : ℚ) (hn : 2 ≤ d.length) :
    (calculateTransitionOffsets d t).length = d.length - 1
    ∧ (calculateTransitionOffsets d t).getD 0 0 = d.getD 0 0 - t
    ∧ (∀ i : ℕ, 1 ≤ i → i < d.length - 1 →
        (calculateTransitionOffsets d t).getD i 0
          = (calculateTransitionOffsets d t).getD (i - 1) 0 + d.getD i 0 - t) := by
  refine ⟨calculateTransitionOffsets_length d t, ?_, ?_⟩
  · match d, hn with
    | a :: b :: rest, _ =>
      simp [calculateTransitionOffsets, offsetsLoop]
  · intro i h1 h2
    obtain ⟨j, rfl⟩ : ∃ j, i = j + 1 := ⟨i - 1, by omega⟩
    have hlen : j + 1 < d.dropLast.length := by
      simpa [List.length_dropLast] using h2
    have hstep := offsetsLoop_step t d.dropLast 0 j hlen
    calc (calculateTransitionOffsets d t).getD (j + 1) 0
        = (calculateTransitionOffsets d t).getD j 0 + d.dropLast.getD (j + 1) 0 - t := hstep
      _ = (calculateTransitionOffsets d t).getD (j + 1 - 1) 0 + d.getD (j + 1) 0 - t := by
          rw [getD_dropLast d (j + 1) h2]
          norm_num

/-- Witness for C1: scenario A of the spec, two 8-second clips and a
0.5-second fade give the single offset `7.5`. -/
theorem calculateTransitionOffsets_spec_witness :
    (calculateTransitionOffsets [8, 8] (1 / 2)).length = 1
    ∧ (calculateTransitionOffsets [8, 8] (1 / 2)).getD 0 0 = 8 - 1 / 2 := by
  have h := calculateTransitionOffsets_spec [8, 8] (1 / 2) (by norm_num)
  exact ⟨h.1, by simpa using h.2.1⟩

/-- Claim C9: `generateFileName` ignores `songId` entirely — any two song
identifiers give the same `final_video_<processId>.<extension>` — and
`songId` enters only the blob path `videos/<songId>/<fileName>`. -/
theorem generateFileName_spec (songIdA songIdB processId extension fileName : String) :
    generateFileName songIdA processId extension = generateFileName songIdB processId extension
    ∧ generateFileName songIdA processId extension
        = "final_video_" ++ processId ++ "." ++ extension
    ∧ generateBlobPath songIdA fileName = "videos/" ++ songIdA ++ "/" ++ fileName :=
  ⟨rfl, rfl, rfl⟩

/-- Claim C10: a clip with a valid URL and an absent `duration` passes
validation with the default duration 8, while an explicit duration outside
`[1, 60]` is rejected with a validation error. -/
theorem validateVideoClip_spec (url : String) (hurl : validVideoClipUrl url = true) :
    validateVideoClip ⟨url, none⟩ = .ok ⟨url, 8⟩
    ∧ (∀ d : ℚ, d < 1 ∨ 60 < d →
        validateVideoClip ⟨url, some d⟩
          = .error "Video clip duration must be between 1 and 60 seconds") := by
  constructor
  · simp [validateVideoClip, hurl]
  · intro d hd
    have : ¬(1 ≤ d ∧ d ≤ 60) := by
      rcases hd with h | h
      · exact fun hc => absurd hc.1 (not_le.mpr h)
      · exact fun hc => absurd hc.2 (not_le.mpr h)
    simp [validateVideoClip, hurl, this]

/-- Witness for C10 at a concrete URL: absent duration defaults to 8 and
duration 61 is rejected. -/
theorem validateVideoClip_spec_witness :
    validateVideoClip ⟨"https://cdn.example/a.mp4", none⟩
      = .ok ⟨"https://cdn.example/a.mp4", 8⟩
    ∧ validateVideoClip ⟨"https://cdn.example/a.mp4", some 61⟩
      = .error "Video clip duration must be between 1 and 60 seconds" := by
  have h := validateVideoClip_spec "https://cdn.example/a.mp4" (by decide)
  exact ⟨h.1, h.2 61 (by norm_num)⟩

/-- Claim C3: the workspace-lifecycle asymmetry of
`VideoProcessor.processVideo`. A failure at any step up to and including
the transcode leaves no workspace behind (the catch block deletes it before
the error propagates, and pre-workspace failures never create one), while a
failure in the post-transcode upload fork — a `ProcessingError` at stage
`output_upload` — preserves both the workspace and the rendered file. -/
theorem runPipeline_cleanup_spec :
    (∀ step : PipelineStep, stepIndex step ≤ stepIndex .transcode →
      runPipeline (some step) = .failed (stepError step) ⟨false, false⟩)
    ∧ runPipeline (some .uploadFork) = .failed ⟨.uploadFailed, .outputUpload⟩ ⟨true, true⟩ := by
  constructor
  · intro step
    cases step <;> decide
  · decide

/-- Witness for C3: a failed download run ends with no workspace; the
upload-fork conjunct is already closed. -/
theorem runPipeline_cleanup_spec_witness :
    runPipeline (some .downloadAssets)
      = .failed (stepError .downloadAssets) ⟨false, false⟩ :=
  runPipeline_cleanup_spec.1 .downloadAssets (by decide)

/-- Claim C2 is refuted by the code (code bug): when the platform reports
`errored`, the `throw` inside the polling `try` is caught by that same
try's `catch`, which rethrows only at the last retry. With every poll
returning `errored` (in particular the first), the client performs all 30
polls — not 1 — before the platform error finally propagates. -/
theorem muxAssetWait_errored_keeps_polling :
    muxAssetWait (fun _ => .asset "errored" []) = .fatalErrored 30
    ∧ (muxAssetWait (fun _ => .asset "errored" [])).polls = 30 := by
  constructor <;> decide

/-- Claim C8: the ingest-status poll does at most `maxStatusRetries = 10`
retrieves, the asset-ready poll at most `maxRetries = 30`; if no poll ever
passes the ready check the client ends fatally after exactly 30 polls, and
if the asset just stays pending this fatal end is precisely the
`timed out` error. -/
theorem muxPolling_bounded_spec (ipoll : ℕ → IngestPoll) (apoll : ℕ → AssetPoll) :
    (muxIngestWait ipoll).polls ≤ 10
    ∧ (muxAssetWait apoll).polls ≤ 30
    ∧ ((∀ r, (apoll r).passesReady = false) →
        (muxAssetWait apoll).isFatal = true ∧ (muxAssetWait apoll).polls = 30)
    ∧ ((∀ r, (apoll r).isPending = true) → muxAssetWait apoll = .timedOut 30) := by
  refine ⟨?_, ?_, ?_, ?_⟩
  · simpa using ingestLoop_polls_le ipoll maxStatusRetries 0
  · simpa using assetLoop_polls_le apoll maxRetries 0
  · intro h
    simpa using assetLoop_never_ready apoll h maxRetries 0 (by simp)
  · intro h
    simpa using assetLoop_all_pending apoll h maxRetries 0

/-- Witness for C8: with the upload status never carrying an asset id and
the asset stuck in `preparing`, the poll counts stay within budget and the
asset phase times out after exactly 30 polls. -/
theorem muxPolling_bounded_spec_witness :
    (muxIngestWait (fun _ => .status none)).polls ≤ 10
    ∧ muxAssetWait (fun _ => .asset "preparing" []) = .timedOut 30 := by
  have h := muxPolling_bounded_spec (fun _ => .status none) (fun _ => .asset "preparing" [])
  exact ⟨h.1, h.2.2.2 (fun r => rfl)⟩

/-- Claim C4: for `n ≥ 2` clips the transition chain of
`buildFilterComplex` is a strict left fold. Stage `j` (0-based, `n - 1`
stages in all) combines the running merged stream with scaled stream
`v(j+1)` using fade duration `t` at `offset j`; stage 0 starts from `v0`,
each later stage's left input is the previous stage's output, the last
stage emits the single merged stream `video_out`, and the graph string
contains exactly the rendered fold chain between the scale segments and the
subtitle stage. -/
theorem buildFilterComplex_fold_spec (n : ℕ) (t : ℚ) (offs : List ℚ) (hn : 2 ≤ n)
    (sts : List XfadeStage) (hsts : sts = transitionStages n t offs) :
    sts.length = n - 1
    ∧ (∀ j : ℕ, j < n - 1 →
        (sts.getD j stageDefault).right = "v" ++ toString (j + 1)
        ∧ (sts.getD j stageDefault).dur = t
        ∧ (sts.getD j stageDefault).off = offs.getD j 0)
    ∧ (sts.getD 0 stageDefault).left = "v0"
    ∧ (∀ j : ℕ, j + 1 < n - 1 →
        (sts.getD (j + 1) stageDefault).left = (sts.getD j stageDefault).out)
    ∧ (sts.getD (n - 2) stageDefault).out = "video_out"
    ∧ (∀ (cwd : String) (ctx : ProcessingContext),
        ctx.localFiles.videoClips.length = n →
        jsOrQ ctx.request.transitionDuration (1 / 2) = t →
        ctx.metadata.transitionOffsets = offs →
        buildFilterComplex cwd ctx
          = String.join ((List.range n).map
              (scaleSegment (aspectConfigs ctx.request.outputAspect).1
                (aspectConfigs ctx.request.outputAspect).2))
            ++ String.join (sts.map renderXfade)
            ++ ("[video_out]ass=" ++ ctx.localFiles.assFile ++ ":fontsdir="
                ++ cwd ++ "/fonts" ++ "[vout]")) := by
  have hn1 : 1 ≤ n := by omega
  subst hsts
  refine ⟨transitionStages_length n t offs hn1, ?_, ?_, ?_, ?_, ?_⟩
  · intro j hj
    rw [transitionStages_getD n t offs hn1 j hj]
    have e1 : 1 + j = j + 1 := by omega
    have e2 : 1 + j - 1 = j := by omega
    refine ⟨?_, rfl, ?_⟩
    · simp only [stageSpec, e1]
    · simp only [stageSpec, e2]
  · rw [transitionStages_getD n t offs hn1 0 (by omega)]
    simp [stageSpec]
  · intro j hj
    rw [transitionStages_getD n t offs hn1 (j + 1) hj,
      transitionStages_getD n t offs hn1 j (by omega)]
    have e1 : 1 + (j + 1) - 1 = j + 1 := by omega
    have e2 : 1 + j ≠ n - 1 := by omega
    have e3 : 1 + j = j + 1 := by omega
    simp only [stageSpec, Nat.succ_ne_zero, if_false, e1, if_neg e2, e3]
    rw [if_neg (show ¬(j + 1 = n - 1) by omega)]
  · rw [transitionStages_getD n t offs hn1 (n - 2) (by omega)]
    have e1 : 1 + (n - 2) = n - 1 := by omega
    simp [stageSpec, e1]
  · intro cwd ctx h1 h2 h3
    subst h2
    subst h3
    have hne : n ≠ 1 := by omega
    simp [buildFilterComplex, h1, hne, String.append_assoc]

/-- Witness for C4: three clips with fade 1/2 and offsets `[15/2, 15]`. -/
theorem buildFilterComplex_fold_spec_witness :
    (transitionStages 3 (1 / 2) [15 / 2, 15]).length = 2
    ∧ ((transitionStages 3 (1 / 2) [15 / 2, 15]).getD 0 stageDefault).left = "v0" := by
  have h := buildFilterComplex_fold_spec 3 (1 / 2) [15 / 2, 15] (by norm_num)
    (transitionStages 3 (1 / 2) [15 / 2, 15]) rfl
  exact ⟨h.1, h.2.2.1⟩

/-- Claim C5: a single-clip request computes no transition offsets and its
filter graph has no xfade stage — the chain is empty, and the graph is the
scale segment followed by the scaled stream `v0` feeding the subtitle
burn-in that produces the terminal `vout` label. -/
theorem buildFilterComplex_single_spec (cwd : String) (ctx : ProcessingContext)
    (h1 : ctx.localFiles.videoClips.length = 1) :
    (∀ d t : ℚ, calculateTransitionOffsets [d] t = [])
    ∧ (∀ (t : ℚ) (offs : List ℚ), transitionStages 1 t offs = [])
    ∧ buildFilterComplex cwd ctx
        = scaleSegment (aspectConfigs ctx.request.outputAspect).1
            (aspectConfigs ctx.request.outputAspect).2 0
          ++ "[v0]"
          ++ ("[v0]ass=" ++ ctx.localFiles.assFile ++ ":fontsdir="
              ++ cwd ++ "/fonts" ++ "[vout]") := by
  refine ⟨fun d t => rfl, fun t offs => rfl, ?_⟩
  have hr : List.range 1 = [0] := rfl
  simp [buildFilterComplex, h1, hr, join_singleton, String.append_assoc]

/-- Witness for C5 at the concrete single-clip context. -/
theorem buildFilterComplex_single_spec_witness :
    buildFilterComplex "/app" demoContext1
      = scaleSegment 1080 1920 0 ++ "[v0]"
        ++ ("[v0]ass=" ++ "/tmp/p2/subtitles.ass" ++ ":fontsdir="
            ++ "/app" ++ "/fonts" ++ "[vout]") := by
  have h := buildFilterComplex_single_spec "/app" demoContext1 rfl
  exact h.2.2

/-- Claim C6: the transcode invocation takes the clip files first in
playback order, then the song file, then the subtitle file, and its only
`-map` directives select the graph's terminal `[vout]` label and the audio
stream of input index `n` (the song input), never a clip's native audio. -/
theorem processVideoCommand_mapping_spec (cwd : String) (ctx : ProcessingContext) :
    (processVideoCommand cwd ctx).inputs
        = ctx.localFiles.videoClips ++ [ctx.localFiles.songFile, ctx.localFiles.assFile]
    ∧ (∀ i : ℕ, i < ctx.localFiles.videoClips.length →
        (processVideoCommand cwd ctx).inputs.getD i ""
          = ctx.localFiles.videoClips.getD i "")
    ∧ (processVideoCommand cwd ctx).inputs.getD ctx.localFiles.videoClips.length ""
        = ctx.localFiles.songFile
    ∧ (processVideoCommand cwd ctx).inputs.getD (ctx.localFiles.videoClips.length + 1) ""
        = ctx.localFiles.assFile
    ∧ flagValues "-map" (processVideoCommand cwd ctx).outputOptions
        = ["[vout]", toString ctx.localFiles.videoClips.length ++ ":a"] := by
  refine ⟨rfl, ?_, ?_, ?_, ?_⟩
  · intro i hi
    simp only [processVideoCommand]
    exact getD_append_pair_left _ _ i hi
  · simp only [processVideoCommand]
    exact getD_append_pair_mid _ _ _
  · simp only [processVideoCommand]
    exact getD_append_pair_last _ _ _
  · simp [processVideoCommand, flagValues]

/-- Witness for C6 at the concrete two-clip context: input 2 is the song
and the map directives are `[vout]` and `2:a`. -/
theorem processVideoCommand_mapping_spec_witness :
    (processVideoCommand "/app" demoContext).inputs.getD 2 "" = "/tmp/p1/song.mp3"
    ∧ flagValues "-map" (processVideoCommand "/app" demoContext).outputOptions
        = ["[vout]", "2:a"] := by
  have h := processVideoCommand_mapping_spec "/app" demoContext
  exact ⟨h.2.2.1, h.2.2.2.2⟩

/-- Claim C7: the emitted encoder options carry exactly one output-duration
limit, `-t` set to the probed song duration, so the configured render
ceiling equals `metadata.songDuration` for every request. -/
theorem processVideoCommand_duration_spec (cwd : String) (ctx : ProcessingContext) :
    flagValues "-t" (processVideoCommand cwd ctx).outputOptions
      = [toString ctx.metadata.songDuration] := by
  simp [processVideoCommand, flagValues]

end StitchIt
